import Mathlib

/-!
Verification of the order-discovery and confidential-input-resolution core of
the tdex trading service (`src/services/tdexService/index.ts`).

The TypeScript source is shallowly embedded: pure loops become structural
recursion over lists, JavaScript `Record` objects become association lists or
lookup functions, thrown exceptions become `Except`, and `undefined` becomes
`Option`.  Network effects (the per-version `discover` calls inside the closure
returned by `discoverBestOrder`) are represented by an explicit
`DiscoveryOutcome` argument standing for what the awaited calls produced.
-/

namespace Tdex

/-- Modelled from the spec: identity of a swap counter-party —
`{name, endpoint URL}` (the protocol version tag is carried by which market
list the provider appears in).  The `TDEXProvider` type itself lives outside
the given sources, in `v1/tradeCore`. -/
structure TDEXProvider where
  name : String
  endpoint : String
deriving DecidableEq, Repr

/-- Modelled from the spec: a V1 market — `{provider, baseAsset, quoteAsset,
liquidity balances, fee parameters}`.  The type lives in `v1/tradeCore`,
outside the given sources; balances and the fee parameter are optional since a
market with no balance data is still included. -/
structure TDEXMarketV1 where
  provider : TDEXProvider
  baseAsset : String
  quoteAsset : String
  baseAmount : Option Nat
  quoteAmount : Option Nat
  basisPoint : Option Nat
deriving DecidableEq, Repr

/-- Modelled from the spec: a V2 market — same shape as V1 but with the V2 fee
parameter (`percentageFee`, used elsewhere to discriminate V2 orders). -/
structure TDEXMarketV2 where
  provider : TDEXProvider
  baseAsset : String
  quoteAsset : String
  baseAmount : Option Nat
  quoteAmount : Option Nat
  percentageFee : Option String
deriving DecidableEq, Repr

/-- Trade direction.  The protobuf enums `TradeType` of v1 and v2 are
structurally identical; one inductive serves both pipelines. -/
inductive TradeType where
  | BUY
  | SELL
deriving DecidableEq, Repr

/-- A client handle bound to a provider endpoint.  The real `TraderClient`
performs RPC (out of scope); only the construction data is modelled.
`torProxy` keeps the raw optional argument; its default resolution happens in
the out-of-scope transport layer. -/
structure TraderClient where
  providerUrl : String
  torProxy : Option String
deriving DecidableEq, Repr

/-- `createTraderClientV1` from the source: binds a client to an endpoint. -/
def createTraderClientV1 (endpoint : String) (torProxy : Option String) : TraderClient :=
  { providerUrl := endpoint, torProxy := torProxy }

/-- `createTraderClientV2` from the source: binds a client to an endpoint. -/
def createTraderClientV2 (endpoint : String) (torProxy : Option String) : TraderClient :=
  { providerUrl := endpoint, torProxy := torProxy }

/-- A candidate trading opportunity for the V1 pipeline
(`TradeOrder` of `v1/tradeCore`): market, direction, bound client. -/
structure TradeOrderV1 where
  market : TDEXMarketV1
  type : TradeType
  traderClient : TraderClient
deriving DecidableEq, Repr

/-- A candidate trading opportunity for the V2 pipeline. -/
structure TradeOrderV2 where
  market : TDEXMarketV2
  type : TradeType
  traderClient : TraderClient
deriving DecidableEq, Repr

/-- `computeOrdersV1` from the source: iterate the markets in order; push a
SELL order when `sentAsset === market.baseAsset && receivedAsset ===
market.quoteAsset`, and (independently) a BUY order when
`sentAsset === market.quoteAsset && receivedAsset === market.baseAsset`. -/
def computeOrdersV1 : List TDEXMarketV1 → String → String → Option String → List TradeOrderV1
  | [], _, _, _ => []
  | market :: rest, sentAsset, receivedAsset, torProxy =>
    (if sentAsset = market.baseAsset ∧ receivedAsset = market.quoteAsset then
      [{ market := market, type := TradeType.SELL,
         traderClient := createTraderClientV1 market.provider.endpoint torProxy }]
     else []) ++
    (if sentAsset = market.quoteAsset ∧ receivedAsset = market.baseAsset then
      [{ market := market, type := TradeType.BUY,
         traderClient := createTraderClientV1 market.provider.endpoint torProxy }]
     else []) ++
    computeOrdersV1 rest sentAsset receivedAsset torProxy

/-- `computeOrdersV2` from the source: identical control flow to V1, over V2
markets and the V2 client constructor. -/
def computeOrdersV2 : List TDEXMarketV2 → String → String → Option String → List TradeOrderV2
  | [], _, _, _ => []
  | market :: rest, sentAsset, receivedAsset, torProxy =>
    (if sentAsset = market.baseAsset ∧ receivedAsset = market.quoteAsset then
      [{ market := market, type := TradeType.SELL,
         traderClient := createTraderClientV2 market.provider.endpoint torProxy }]
     else []) ++
    (if sentAsset = market.quoteAsset ∧ receivedAsset = market.baseAsset then
      [{ market := market, type := TradeType.BUY,
         traderClient := createTraderClientV2 market.provider.endpoint torProxy }]
     else []) ++
    computeOrdersV2 rest sentAsset receivedAsset torProxy

/-- Spec-side per-market emitter for V1, following the spec's words: "emits a
SELL order when `sentAsset == baseAsset ∧ receivedAsset == quoteAsset`, a BUY
order when the assets are swapped, and nothing otherwise". -/
def specOrdersForMarketV1 (sentAsset receivedAsset : String) (torProxy : Option String)
    (market : TDEXMarketV1) : List TradeOrderV1 :=
  (if sentAsset = market.baseAsset ∧ receivedAsset = market.quoteAsset then
    [{ market := market, type := TradeType.SELL,
       traderClient := createTraderClientV1 market.provider.endpoint torProxy }]
   else []) ++
  (if sentAsset = market.quoteAsset ∧ receivedAsset = market.baseAsset then
    [{ market := market, type := TradeType.BUY,
       traderClient := createTraderClientV1 market.provider.endpoint torProxy }]
   else [])

/-- Spec-side per-market emitter for V2. -/
def specOrdersForMarketV2 (sentAsset receivedAsset : String) (torProxy : Option String)
    (market : TDEXMarketV2) : List TradeOrderV2 :=
  (if sentAsset = market.baseAsset ∧ receivedAsset = market.quoteAsset then
    [{ market := market, type := TradeType.SELL,
       traderClient := createTraderClientV2 market.provider.endpoint torProxy }]
   else []) ++
  (if sentAsset = market.quoteAsset ∧ receivedAsset = market.baseAsset then
    [{ market := market, type := TradeType.BUY,
       traderClient := createTraderClientV2 market.provider.endpoint torProxy }]
   else [])

/-- The two market lists handed to `discoverBestOrder`. -/
structure TDEXMarkets where
  v1 : List TDEXMarketV1
  v2 : List TDEXMarketV2
deriving DecidableEq, Repr

/-- The union return type `TradeOrderV1 | TradeOrderV2` of the closure. -/
inductive TradeOrderEither where
  | v1 (order : TradeOrderV1)
  | v2 (order : TradeOrderV2)
deriving DecidableEq, Repr

/-- The two errors `discoverBestOrder` can throw synchronously:
`new Error('unable to compute orders for selected market')` and
`NoMarketsAvailableForSelectedPairError` (from `utils/errors`, outside the
given sources; only its identity matters here). -/
inductive TdexSelectionError where
  | unableToComputeOrders
  | noMarketsAvailableForSelectedPair
deriving DecidableEq, Repr

/-- What the awaited discovery phase inside the closure's `try` block did:
either both `discover` calls resolved with their ranked lists, or some step of
the phase threw (network failure, rejected promise, ...).  The internally
thrown `'zero best orders found by discoverer'` error is NOT a `threw`
outcome: it is raised after both calls resolve empty and is modelled inside
`bestOrderFetcher`. -/
inductive DiscoveryOutcome where
  | results (bestOrdersV1 : List TradeOrderV1) (bestOrdersV2 : List TradeOrderV2)
  | threw
deriving DecidableEq, Repr

/-- JavaScript nullish coalescing `a ?? b` on possibly-undefined values. -/
def nullishCoalesce {α : Type} (a b : Option α) : Option α :=
  match a with
  | some x => some x
  | none => b

/-- JavaScript falsiness of an optional string: `!s` is true for `undefined`
and for the empty string. -/
def isFalsyString : Option String → Bool
  | none => true
  | some s => s = ""

/-- The closure returned by `discoverBestOrder` (source lines 366-391), with
the discovery phase's outcome made an explicit argument.  `sats <= 0` returns
`allPossibleOrdersV1[0] ?? allPossibleOrdersV2[0]` without discovery;
otherwise every failure path of the `try` block (a thrown exception, or both
ranked lists empty which raises and immediately catches `'zero best orders
found by discoverer'`) falls back to `allPossibleOrdersV1[0]`, and the success
path returns `bestOrdersV2[0] ?? bestOrdersV1[0]`.  `none` is JavaScript
`undefined`. -/
def bestOrderFetcher (allPossibleOrdersV1 : List TradeOrderV1)
    (allPossibleOrdersV2 : List TradeOrderV2) (sats : Int) (outcome : DiscoveryOutcome) :
    Option TradeOrderEither :=
  if sats ≤ 0 then
    nullishCoalesce (allPossibleOrdersV1.head?.map TradeOrderEither.v1)
      (allPossibleOrdersV2.head?.map TradeOrderEither.v2)
  else
    match outcome with
    | DiscoveryOutcome.threw => allPossibleOrdersV1.head?.map TradeOrderEither.v1
    | DiscoveryOutcome.results bestOrdersV1 bestOrdersV2 =>
      if bestOrdersV1.length = 0 ∧ bestOrdersV2.length = 0 then
        -- 'zero best orders found by discoverer' is thrown and caught by the
        -- surrounding catch, which returns allPossibleOrdersV1[0]
        allPossibleOrdersV1.head?.map TradeOrderEither.v1
      else
        nullishCoalesce (bestOrdersV2.head?.map TradeOrderEither.v2)
          (bestOrdersV1.head?.map TradeOrderEither.v1)

/-- `discoverBestOrder` from the source: guard on falsy assets, compute both
candidate sets, fail when both are empty, otherwise return the per-amount
closure. -/
def discoverBestOrder (markets : TDEXMarkets) (sendAsset receiveAsset : Option String) :
    Except TdexSelectionError (Int → DiscoveryOutcome → Option TradeOrderEither) :=
  if isFalsyString sendAsset ∨ isFalsyString receiveAsset then
    Except.error TdexSelectionError.unableToComputeOrders
  else
    let allPossibleOrdersV1 := computeOrdersV1 markets.v1 (sendAsset.getD "") (receiveAsset.getD "") none
    let allPossibleOrdersV2 := computeOrdersV2 markets.v2 (sendAsset.getD "") (receiveAsset.getD "") none
    if allPossibleOrdersV1.length = 0 ∧ allPossibleOrdersV2.length = 0 then
      Except.error TdexSelectionError.noMarketsAvailableForSelectedPair
    else
      Except.ok (bestOrderFetcher allPossibleOrdersV1 allPossibleOrdersV2)

/-! ## Confidential input resolution (`psetToUnblindedInputs`) -/

/-- One hex digit, lowercase, as produced by Node's `Buffer.toString('hex')`. -/
def hexChar (n : Nat) : Char :=
  if n < 10 then Char.ofNat (48 + n) else Char.ofNat (87 + n)

/-- Two lowercase hex digits of one byte. -/
def byteToHex (b : Nat) : String :=
  String.mk [hexChar (b / 16 % 16), hexChar (b % 16)]

/-- `buffer.toString('hex')`: concatenated two-digit lowercase hex bytes. -/
def bytesToHex (bytes : List Nat) : String :=
  String.join (bytes.map byteToHex)

/-- Numeric value of one hex digit (0 for a non-hex character, which cannot
occur in the well-formed hex strings the wallet stores). -/
def hexVal (c : Char) : Nat :=
  if 48 ≤ c.toNat ∧ c.toNat ≤ 57 then c.toNat - 48
  else if 97 ≤ c.toNat ∧ c.toNat ≤ 102 then c.toNat - 87
  else if 65 ≤ c.toNat ∧ c.toNat ≤ 70 then c.toNat - 55
  else 0

/-- Decode hex characters pairwise into bytes (a trailing odd nibble is
dropped, as Node's `Buffer.from(s, 'hex')` does). -/
def hexCharsToBytes : List Char → List Nat
  | hi :: lo :: rest => (hexVal hi * 16 + hexVal lo) :: hexCharsToBytes rest
  | _ => []

/-- `Buffer.from(s, 'hex')` on a well-formed hex string. -/
def hexToBytes (s : String) : List Nat :=
  hexCharsToBytes s.data

/-- `Buffer.from(s, 'hex').reverse().toString('hex')`: the documented
byte-reversal of a hex-encoded value. -/
def reverseHex (s : String) : String :=
  bytesToHex (hexToBytes s).reverse

/-- Modelled from the spec: an entry of the wallet's script-to-details index.
Only its presence is tested by the resolver (`if (scriptDetails)`), so its
fields are irrelevant here; the real `ScriptDetails` lives in
`store/walletStore`, outside the given sources. -/
structure ScriptDetails where
  present : Unit
deriving DecidableEq, Repr

/-- The unblinding data optionally recorded with a wallet output history
entry (`asset`, hex blinding factors, and the plaintext `value`). -/
structure BlindingData where
  asset : String
  assetBlindingFactor : String
  valueBlindingFactor : String
  value : Nat
deriving DecidableEq, Repr

/-- Modelled from the spec: one entry of the wallet's output history,
"each entry optionally carrying blinding data". -/
structure UnblindOutput where
  blindingData : Option BlindingData
deriving DecidableEq, Repr

/-- Modelled from the spec: the read-only wallet store state the resolver
consumes — "script-to-details index keyed by hex-encoded output script;
output history keyed by a canonical txid:vout string". -/
structure WalletState where
  scriptDetails : String → Option ScriptDetails
  outputHistory : String → Option UnblindOutput

/-- The witness utxo attached to a transaction input; only its output script
is read by the resolver. -/
structure WitnessUtxo where
  script : List Nat
deriving DecidableEq, Repr

/-- One input of the transaction template (`Pset.inputs[i]`): optional witness
utxo, previous transaction id bytes, previous output index. -/
structure PsetInput where
  witnessUtxo : Option WitnessUtxo
  previousTxid : List Nat
  previousTxIndex : Nat
deriving DecidableEq, Repr

/-- The transaction template; only its input list is read. -/
structure Pset where
  inputs : List PsetInput
deriving DecidableEq, Repr

/-- The `UnblindedInput` record of the v2 protobuf (asset, byte-reversed
blinders, stringified amount, original input index). -/
structure UnblindedInput where
  asset : String
  assetBlinder : String
  amountBlinder : String
  amount : String
  index : Nat
deriving DecidableEq, Repr

/-- Modelled from the spec: `outpointToString` of `utils/helpers` (outside the
given sources) — "output history keyed by a canonical txid:vout string". -/
def outpointToString (txid : String) (vout : Nat) : String :=
  txid ++ ":" ++ toString vout

/-- Lookup in a JavaScript `Record` modelled as an association list. -/
def lookupRecord : List (String × ScriptDetails) → String → Option ScriptDetails
  | [], _ => none
  | (k, v) :: rest, s => if s = k then some v else lookupRecord rest s

/-- First phase of `psetToUnblindedInputs`: hex-encode the witness-utxo script
of every input that has one (`.map(...).filter(!!script).map(toString hex)`). -/
def inputsScriptsOf (inputs : List PsetInput) : List String :=
  (inputs.filterMap (fun input => input.witnessUtxo.map (fun w => w.script))).map bytesToHex

/-- Second phase: restrict the global script index to the scripts occurring in
the inputs (`scriptsDetails[script] = store.scriptDetails[script]` when the
store has the script).  The JavaScript object is modelled as an association
list; with duplicate scripts every stored value equals the store's value for
that key, so lookup results do not depend on insertion order. -/
def buildScriptsDetails (state : WalletState) : List String → List (String × ScriptDetails)
  | [] => []
  | script :: rest =>
    match state.scriptDetails script with
    | some scriptDetails => (script, scriptDetails) :: buildScriptsDetails state rest
    | none => buildScriptsDetails state rest

/-- Third phase: the indexed loop collecting `inputIndexes` — an input index
is kept when the input has a witness-utxo script whose hex encoding is in the
restricted script index. -/
def collectInputIndexes (scriptsDetails : List (String × ScriptDetails)) :
    List PsetInput → Nat → List Nat
  | [], _ => []
  | input :: rest, i =>
    match input.witnessUtxo with
    | none => collectInputIndexes scriptsDetails rest (i + 1)
    | some w =>
      match lookupRecord scriptsDetails (bytesToHex w.script) with
      | some _ => i :: collectInputIndexes scriptsDetails rest (i + 1)
      | none => collectInputIndexes scriptsDetails rest (i + 1)

/-- Final phase: for each collected index, look up the outpoint
(byte-reversed txid hex, previous output index) in the output history and,
when blinding data is recorded, emit the `UnblindedInput` with byte-reversed
blinders.  The collected indexes are always in range, so the out-of-range
`none` branch of the element lookup is dead code kept only for totality. -/
def unblindLoop (state : WalletState) (inputs : List PsetInput) : List Nat → List UnblindedInput
  | [] => []
  | inputIndex :: rest =>
    match inputs.get? inputIndex with
    | none => unblindLoop state inputs rest
    | some input =>
      match state.outputHistory
          (outpointToString (bytesToHex input.previousTxid.reverse) input.previousTxIndex) with
      | none => unblindLoop state inputs rest
      | some unblindOutput =>
        match unblindOutput.blindingData with
        | none => unblindLoop state inputs rest
        | some bd =>
          { asset := bd.asset
            assetBlinder := reverseHex bd.assetBlindingFactor
            amountBlinder := reverseHex bd.valueBlindingFactor
            amount := toString bd.value
            index := inputIndex } :: unblindLoop state inputs rest

/-- `psetToUnblindedInputs` from the source, with the ambient wallet store
passed explicitly (`useWalletStore.getState()` reads are the two fields of
`state`). -/
def psetToUnblindedInputs (state : WalletState) (pset : Pset) : List UnblindedInput :=
  let inputsScripts := inputsScriptsOf pset.inputs
  let scriptsDetails := buildScriptsDetails state inputsScripts
  let inputIndexes := collectInputIndexes scriptsDetails pset.inputs 0
  unblindLoop state pset.inputs inputIndexes

/-! ## Concrete example data used by witnesses and counterexamples -/

/-- A concrete provider. -/
def exProvider : TDEXProvider :=
  { name := "p", endpoint := "endpoint" }

/-- A degenerate V1 market quoting an asset against itself. -/
def exMarketDegenerate : TDEXMarketV1 :=
  { provider := exProvider, baseAsset := "a", quoteAsset := "a",
    baseAmount := none, quoteAmount := none, basisPoint := none }

/-- A concrete V1 market for the pair (a, b). -/
def exMarketV1 : TDEXMarketV1 :=
  { provider := exProvider, baseAsset := "a", quoteAsset := "b",
    baseAmount := none, quoteAmount := none, basisPoint := none }

/-- A concrete V2 market for the pair (a, b). -/
def exMarketV2 : TDEXMarketV2 :=
  { provider := exProvider, baseAsset := "a", quoteAsset := "b",
    baseAmount := none, quoteAmount := none, percentageFee := none }

/-- Market lists with a single matching V1 market. -/
def exMarketsV1Only : TDEXMarkets :=
  { v1 := [exMarketV1], v2 := [] }

/-- Market lists with a single matching V2 market. -/
def exMarketsV2Only : TDEXMarkets :=
  { v1 := [], v2 := [exMarketV2] }

/-- Empty market lists. -/
def exMarketsEmpty : TDEXMarkets :=
  { v1 := [], v2 := [] }

/-- A concrete V2 trade order, used as a ranked discovery result. -/
def exOrderV2 : TradeOrderV2 :=
  { market := exMarketV2, type := TradeType.SELL,
    traderClient := createTraderClientV2 "endpoint" none }

/-- A concrete template input: script bytes `[0, 1]` (hex `"0001"`),
previous txid byte `[2]`, previous output index 3. -/
def exInput : PsetInput :=
  { witnessUtxo := some { script := [0, 1] }, previousTxid := [2], previousTxIndex := 3 }

/-- A one-input template. -/
def exPset : Pset :=
  { inputs := [exInput] }

/-- A wallet state owning script `"0001"` and holding blinding data for the
outpoint `"02:3"` referenced by `exInput`. -/
def exState : WalletState :=
  { scriptDetails := fun s => if s = "0001" then some { present := () } else none,
    outputHistory := fun k =>
      if k = "02:3" then
        some { blindingData := some { asset := "lbtc", assetBlindingFactor := "0a0b",
                                      valueBlindingFactor := "ff00", value := 42 } }
      else none }

/-- A wallet state owning script `"0001"` but with an empty output history. -/
def exStateNoHistory : WalletState :=
  { scriptDetails := fun s => if s = "0001" then some { present := () } else none,
    outputHistory := fun _ => none }

/-- The entry `psetToUnblindedInputs exState exPset` produces for `exInput`. -/
def exUnblinded : UnblindedInput :=
  { asset := "lbtc", assetBlinder := "0b0a", amountBlinder := "00ff",
    amount := "42", index := 0 }

/-! ## Helper lemmas -/

theorem computeOrdersV1_eq_bind (markets : List TDEXMarketV1) (a b : String)
    (p : Option String) :
    computeOrdersV1 markets a b p = markets.flatMap (specOrdersForMarketV1 a b p) := by
  induction markets with
  | nil => rfl
  | cons m rest ih =>
    simp [computeOrdersV1, specOrdersForMarketV1, List.flatMap, ih, List.append_assoc]

theorem computeOrdersV2_eq_bind (markets : List TDEXMarketV2) (a b : String)
    (p : Option String) :
    computeOrdersV2 markets a b p = markets.flatMap (specOrdersForMarketV2 a b p) := by
  induction markets with
  | nil => rfl
  | cons m rest ih =>
    simp [computeOrdersV2, specOrdersForMarketV2, List.flatMap, ih, List.append_assoc]

theorem discoverBestOrder_ok_inv (markets : TDEXMarkets) (sendAsset receiveAsset : Option String)
    (fetch : Int → DiscoveryOutcome → Option TradeOrderEither)
    (h : discoverBestOrder markets sendAsset receiveAsset = Except.ok fetch) :
    fetch = bestOrderFetcher
        (computeOrdersV1 markets.v1 (sendAsset.getD "") (receiveAsset.getD "") none)
        (computeOrdersV2 markets.v2 (sendAsset.getD "") (receiveAsset.getD "") none) ∧
    ¬((computeOrdersV1 markets.v1 (sendAsset.getD "") (receiveAsset.getD "") none).length = 0 ∧
      (computeOrdersV2 markets.v2 (sendAsset.getD "") (receiveAsset.getD "") none).length = 0) := by
  unfold discoverBestOrder at h
  by_cases h1 : isFalsyString sendAsset = true ∨ isFalsyString receiveAsset = true
  · simp [h1] at h
  · simp only [h1, if_false] at h
    by_cases h2 : (computeOrdersV1 markets.v1 (sendAsset.getD "") (receiveAsset.getD "") none).length = 0 ∧
        (computeOrdersV2 markets.v2 (sendAsset.getD "") (receiveAsset.getD "") none).length = 0
    · simp [h2] at h
    · simp only [h2, if_false] at h
      refine ⟨?_, h2⟩
      cases h
      rfl

/-- Claim C4: when the amount is positive and the two per-version discovery
runs return ranked lists where at least one is non-empty, the closure returned
by `discoverBestOrder` selects the first element of the V2 ranked list whenever
that list is non-empty, and the first element of the V1 ranked list only when
the V2 list is empty. -/
theorem discoverBestOrder_prefers_v2 (markets : TDEXMarkets)
    (sendAsset receiveAsset : Option String)
    (fetch : Int → DiscoveryOutcome → Option TradeOrderEither)
    (h : discoverBestOrder markets sendAsset receiveAsset = Except.ok fetch)
    (sats : Int) (hsats : 0 < sats)
    (bestOrdersV1 : List TradeOrderV1) (bestOrdersV2 : List TradeOrderV2) :
    (∀ o rest, bestOrdersV2 = o :: rest →
      fetch sats (DiscoveryOutcome.results bestOrdersV1 bestOrdersV2) =
        some (TradeOrderEither.v2 o)) ∧
    (bestOrdersV2 = [] → ∀ o rest, bestOrdersV1 = o :: rest →
      fetch sats (DiscoveryOutcome.results bestOrdersV1 bestOrdersV2) =
        some (TradeOrderEither.v1 o)) := by
  obtain ⟨hf, -⟩ := discoverBestOrder_ok_inv markets sendAsset receiveAsset fetch h
  subst hf
  constructor
  · rintro o rest rfl
    simp [bestOrderFetcher, nullishCoalesce, not_le.mpr hsats]
  · rintro rfl o rest rfl
    simp [bestOrderFetcher, nullishCoalesce, not_le.mpr hsats]

theorem discoverBestOrder_prefers_v2_witness :
    discoverBestOrder exMarketsV1Only (some "a") (some "b") =
      Except.ok (bestOrderFetcher (computeOrdersV1 [exMarketV1] "a" "b" none) []) ∧
    bestOrderFetcher (computeOrdersV1 [exMarketV1] "a" "b" none) [] 1
      (DiscoveryOutcome.results [] [exOrderV2]) = some (TradeOrderEither.v2 exOrderV2) := by
  constructor
  · rfl
  · exact (discoverBestOrder_prefers_v2 exMarketsV1Only (some "a") (some "b") _ rfl 1
      (by decide) [] [exOrderV2]).1 exOrderV2 [] rfl

/-- Claim C5, counterexample: with only a matching V2 market (so a candidate
order exists), the closure returned by `discoverBestOrder` yields no order at
all (`undefined`) for a positive amount when discovery throws or when both
ranked lists come back empty — the catch-all fallback is `allPossibleOrdersV1[0]`,
which is `undefined` when the V1 candidate set is empty.  This refutes the
claim's guarantee that the caller still receives some order whenever at least
one candidate exists in either version. -/
theorem discoverBestOrder_fallback_none_counterexample :
    discoverBestOrder exMarketsV2Only (some "a") (some "b") =
      Except.ok (bestOrderFetcher [] (computeOrdersV2 [exMarketV2] "a" "b" none)) ∧
    computeOrdersV2 [exMarketV2] "a" "b" none ≠ [] ∧
    bestOrderFetcher [] (computeOrdersV2 [exMarketV2] "a" "b" none) 1
      (DiscoveryOutcome.results [] []) = none ∧
    bestOrderFetcher [] (computeOrdersV2 [exMarketV2] "a" "b" none) 1
      DiscoveryOutcome.threw = none := by
  refine ⟨rfl, by decide, by decide, by decide⟩

/-- Claim C5, amended: any exception thrown during the discovery phase
(including the zero-best-orders case where both rankings are empty) is caught
and never propagates, and the closure instead returns the first V1 candidate
order — which is `undefined` (no order) when the V1 candidate set is empty, so
the caller is guaranteed to receive some order only when at least one V1
candidate exists. -/
theorem discoverBestOrder_fallback_on_discovery_failure (markets : TDEXMarkets)
    (sendAsset receiveAsset : Option String)
    (fetch : Int → DiscoveryOutcome → Option TradeOrderEither)
    (h : discoverBestOrder markets sendAsset receiveAsset = Except.ok fetch)
    (sats : Int) (hsats : 0 < sats) :
    (fetch sats DiscoveryOutcome.threw =
      (computeOrdersV1 markets.v1 (sendAsset.getD "") (receiveAsset.getD "") none).head?.map
        TradeOrderEither.v1) ∧
    (fetch sats (DiscoveryOutcome.results [] []) =
      (computeOrdersV1 markets.v1 (sendAsset.getD "") (receiveAsset.getD "") none).head?.map
        TradeOrderEither.v1) ∧
    (∀ o rest,
      computeOrdersV1 markets.v1 (sendAsset.getD "") (receiveAsset.getD "") none = o :: rest →
      fetch sats DiscoveryOutcome.threw = some (TradeOrderEither.v1 o)) := by
  obtain ⟨hf, -⟩ := discoverBestOrder_ok_inv markets sendAsset receiveAsset fetch h
  subst hf
  refine ⟨?_, ?_, ?_⟩
  · simp [bestOrderFetcher, not_le.mpr hsats]
  · simp [bestOrderFetcher, not_le.mpr hsats]
  · rintro o rest hv1
    simp [bestOrderFetcher, not_le.mpr hsats, hv1]

theorem discoverBestOrder_fallback_witness :
    discoverBestOrder exMarketsV1Only (some "a") (some "b") =
      Except.ok (bestOrderFetcher (computeOrdersV1 [exMarketV1] "a" "b" none) []) ∧
    bestOrderFetcher (computeOrdersV1 [exMarketV1] "a" "b" none) [] 1
        DiscoveryOutcome.threw =
      (computeOrdersV1 [exMarketV1] "a" "b" none).head?.map TradeOrderEither.v1 := by
  exact ⟨rfl, (discoverBestOrder_fallback_on_discovery_failure exMarketsV1Only (some "a")
    (some "b") _ rfl 1 (by decide)).1⟩

/-- Claim C6: whenever both asset strings are present and non-empty and
`computeOrders` yields an empty candidate set for both protocol versions,
`discoverBestOrder` fails with the no-liquidity error during its synchronous
construction phase — the result is an `error`, so the per-amount closure is
never produced and no network call can have been made. -/
theorem discoverBestOrder_no_liquidity (markets : TDEXMarkets) (sa ra : String)
    (hsa : sa ≠ "") (hra : ra ≠ "")
    (h1 : computeOrdersV1 markets.v1 sa ra none = [])
    (h2 : computeOrdersV2 markets.v2 sa ra none = []) :
    discoverBestOrder markets (some sa) (some ra) =
      Except.error TdexSelectionError.noMarketsAvailableForSelectedPair := by
  unfold discoverBestOrder
  have hfal : ¬(isFalsyString (some sa) = true ∨ isFalsyString (some ra) = true) := by
    simp [isFalsyString, hsa, hra]
  rw [if_neg hfal]
  simp [h1, h2]

theorem discoverBestOrder_no_liquidity_witness :
    ("a" : String) ≠ "" ∧
    discoverBestOrder exMarketsEmpty (some "a") (some "b") =
      Except.error TdexSelectionError.noMarketsAvailableForSelectedPair :=
  ⟨by decide, discoverBestOrder_no_liquidity exMarketsEmpty "a" "b" (by decide) (by decide)
    rfl rfl⟩

/-- Claim C7: for every amount ≤ 0, the closure returned by
`discoverBestOrder` returns a candidate order without consulting the discovery
outcome at all — the result is the first V1 candidate if the V1 candidate set
is non-empty, otherwise the first V2 candidate — and the construction-phase
guarantee that not both candidate sets are empty makes the result an actual
order (`some`). -/
theorem discoverBestOrder_nonpositive_amount (markets : TDEXMarkets)
    (sendAsset receiveAsset : Option String)
    (fetch : Int → DiscoveryOutcome → Option TradeOrderEither)
    (h : discoverBestOrder markets sendAsset receiveAsset = Except.ok fetch)
    (sats : Int) (hsats : sats ≤ 0) (outcome : DiscoveryOutcome) :
    fetch sats outcome =
      nullishCoalesce
        ((computeOrdersV1 markets.v1 (sendAsset.getD "") (receiveAsset.getD "") none).head?.map
          TradeOrderEither.v1)
        ((computeOrdersV2 markets.v2 (sendAsset.getD "") (receiveAsset.getD "") none).head?.map
          TradeOrderEither.v2) ∧
    ∃ o, fetch sats outcome = some o := by
  obtain ⟨hf, hne⟩ := discoverBestOrder_ok_inv markets sendAsset receiveAsset fetch h
  subst hf
  have heq : bestOrderFetcher
      (computeOrdersV1 markets.v1 (sendAsset.getD "") (receiveAsset.getD "") none)
      (computeOrdersV2 markets.v2 (sendAsset.getD "") (receiveAsset.getD "") none) sats outcome =
      nullishCoalesce
        ((computeOrdersV1 markets.v1 (sendAsset.getD "") (receiveAsset.getD "") none).head?.map
          TradeOrderEither.v1)
        ((computeOrdersV2 markets.v2 (sendAsset.getD "") (receiveAsset.getD "") none).head?.map
          TradeOrderEither.v2) := by
    simp [bestOrderFetcher, hsats]
  refine ⟨heq, ?_⟩
  rw [heq]
  rcases hv1 : computeOrdersV1 markets.v1 (sendAsset.getD "") (receiveAsset.getD "") none with
    _ | ⟨o1, rest1⟩
  · rcases hv2 : computeOrdersV2 markets.v2 (sendAsset.getD "") (receiveAsset.getD "") none with
      _ | ⟨o2, rest2⟩
    · exact absurd ⟨by simp [hv1], by simp [hv2]⟩ hne
    · exact ⟨TradeOrderEither.v2 o2, by simp [nullishCoalesce]⟩
  · exact ⟨TradeOrderEither.v1 o1, by simp [nullishCoalesce]⟩

theorem discoverBestOrder_nonpositive_amount_witness :
    discoverBestOrder exMarketsV1Only (some "a") (some "b") =
      Except.ok (bestOrderFetcher (computeOrdersV1 [exMarketV1] "a" "b" none) []) ∧
    ∃ o, bestOrderFetcher (computeOrdersV1 [exMarketV1] "a" "b" none) [] 0
      DiscoveryOutcome.threw = some o :=
  ⟨rfl, (discoverBestOrder_nonpositive_amount exMarketsV1Only (some "a") (some "b") _ rfl 0
    (by decide) DiscoveryOutcome.threw).2⟩

/-- Claim C10: `discoverBestOrder` throws the synchronous 'unable to compute
orders for selected market' error when `sendAsset` or `receiveAsset` is
`undefined` or the empty string, for every pair of market lists, before
computing any candidate orders. -/
theorem discoverBestOrder_falsy_assets (markets : TDEXMarkets)
    (sendAsset receiveAsset : Option String)
    (h : isFalsyString sendAsset = true ∨ isFalsyString receiveAsset = true) :
    discoverBestOrder markets sendAsset receiveAsset =
      Except.error TdexSelectionError.unableToComputeOrders := by
  unfold discoverBestOrder
  rw [if_pos h]

theorem discoverBestOrder_falsy_assets_witness :
    isFalsyString (some "") = true ∧
    discoverBestOrder exMarketsV1Only (some "") (some "b") =
      Except.error TdexSelectionError.unableToComputeOrders :=
  ⟨by decide, discoverBestOrder_falsy_assets exMarketsV1Only (some "") (some "b")
    (Or.inl (by decide))⟩

/-- Claim C2: for every list of markets and every asset pair,
`computeOrdersV1`/`computeOrdersV2` equals the in-order concatenation of the
per-market spec emitters — a SELL order exactly when `sentAsset = baseAsset ∧
receivedAsset = quoteAsset`, a BUY order exactly when `sentAsset = quoteAsset ∧
receivedAsset = baseAsset`, nothing otherwise, preserving the input market
order. -/
theorem computeOrders_exact_directions_stable (marketsV1 : List TDEXMarketV1)
    (marketsV2 : List TDEXMarketV2) (sentAsset receivedAsset : String)
    (torProxy : Option String) :
    computeOrdersV1 marketsV1 sentAsset receivedAsset torProxy =
      marketsV1.flatMap (specOrdersForMarketV1 sentAsset receivedAsset torProxy) ∧
    computeOrdersV2 marketsV2 sentAsset receivedAsset torProxy =
      marketsV2.flatMap (specOrdersForMarketV2 sentAsset receivedAsset torProxy) :=
  ⟨computeOrdersV1_eq_bind marketsV1 sentAsset receivedAsset torProxy,
   computeOrdersV2_eq_bind marketsV2 sentAsset receivedAsset torProxy⟩

/-- Claim C3, counterexample: a degenerate market whose base and quote asset
coincide matches both directions for the pair (a, a), so that single market
contributes two orders — one SELL and one BUY — in the same call, refuting the
claim as universally stated. -/
theorem computeOrders_degenerate_market_two_orders :
    (computeOrdersV1 [exMarketDegenerate] "a" "a" none).length = 2 ∧
    ({ market := exMarketDegenerate, type := TradeType.SELL,
       traderClient := createTraderClientV1 "endpoint" none } : TradeOrderV1) ∈
      computeOrdersV1 [exMarketDegenerate] "a" "a" none ∧
    ({ market := exMarketDegenerate, type := TradeType.BUY,
       traderClient := createTraderClientV1 "endpoint" none } : TradeOrderV1) ∈
      computeOrdersV1 [exMarketDegenerate] "a" "a" none := by
  refine ⟨by decide, by decide, by decide⟩

/-- Claim C3, amended: when the sent and received assets are distinct, each
market contributes at most one `TradeOrder` — the result is the concatenation
of per-market contributions and every per-market contribution has length at
most one, so no market yields both a SELL and a BUY order in the same call. -/
theorem computeOrders_at_most_one_per_market (sentAsset receivedAsset : String)
    (hne : sentAsset ≠ receivedAsset) (torProxy : Option String) :
    (∀ marketsV1 : List TDEXMarketV1,
      computeOrdersV1 marketsV1 sentAsset receivedAsset torProxy =
        marketsV1.flatMap (fun m => computeOrdersV1 [m] sentAsset receivedAsset torProxy)) ∧
    (∀ m : TDEXMarketV1, (computeOrdersV1 [m] sentAsset receivedAsset torProxy).length ≤ 1) ∧
    (∀ marketsV2 : List TDEXMarketV2,
      computeOrdersV2 marketsV2 sentAsset receivedAsset torProxy =
        marketsV2.flatMap (fun m => computeOrdersV2 [m] sentAsset receivedAsset torProxy)) ∧
    (∀ m : TDEXMarketV2, (computeOrdersV2 [m] sentAsset receivedAsset torProxy).length ≤ 1) := by
  refine ⟨?_, ?_, ?_, ?_⟩
  · intro marketsV1
    rw [computeOrdersV1_eq_bind]
    congr 1
    funext m
    simp [computeOrdersV1, specOrdersForMarketV1]
  · intro m
    by_cases h1 : sentAsset = m.baseAsset ∧ receivedAsset = m.quoteAsset
    · have h2 : ¬(sentAsset = m.quoteAsset ∧ receivedAsset = m.baseAsset) := fun hc =>
        hne (hc.1.trans h1.2.symm)
      simp only [computeOrdersV1, if_pos h1, if_neg h2]
      simp
    · by_cases h2 : sentAsset = m.quoteAsset ∧ receivedAsset = m.baseAsset
      · simp only [computeOrdersV1, if_neg h1, if_pos h2]
        simp
      · simp only [computeOrdersV1, if_neg h1, if_neg h2]
        simp
  · intro marketsV2
    rw [computeOrdersV2_eq_bind]
    congr 1
    funext m
    simp [computeOrdersV2, specOrdersForMarketV2]
  · intro m
    by_cases h1 : sentAsset = m.baseAsset ∧ receivedAsset = m.quoteAsset
    · have h2 : ¬(sentAsset = m.quoteAsset ∧ receivedAsset = m.baseAsset) := fun hc =>
        hne (hc.1.trans h1.2.symm)
      simp only [computeOrdersV2, if_pos h1, if_neg h2]
      simp
    · by_cases h2 : sentAsset = m.quoteAsset ∧ receivedAsset = m.baseAsset
      · simp only [computeOrdersV2, if_neg h1, if_pos h2]
        simp
      · simp only [computeOrdersV2, if_neg h1, if_neg h2]
        simp

theorem computeOrders_at_most_one_per_market_witness :
    ("a" : String) ≠ "b" ∧
    (computeOrdersV1 [exMarketV1] "a" "b" none).length ≤ 1 :=
  ⟨by decide, (computeOrders_at_most_one_per_market "a" "b" (by decide) none).2.1 exMarketV1⟩

theorem lookupRecord_buildScriptsDetails (state : WalletState) (scripts : List String)
    (s : String) :
    lookupRecord (buildScriptsDetails state scripts) s =
      if s ∈ scripts then state.scriptDetails s else none := by
  induction scripts with
  | nil => simp [buildScriptsDetails, lookupRecord]
  | cons s0 rest ih =>
    simp only [buildScriptsDetails]
    cases h0 : state.scriptDetails s0 with
    | some d =>
      simp only [lookupRecord]
      by_cases hs : s = s0
      · subst hs
        simp [h0]
      · rw [if_neg hs, ih]
        simp [List.mem_cons, hs]
    | none =>
      rw [ih]
      by_cases hs : s = s0
      · subst hs
        by_cases hm : s ∈ rest <;> simp [hm, h0]
      · simp [List.mem_cons, hs]

theorem mem_inputsScriptsOf {inputs : List PsetInput} {input : PsetInput} {w : WitnessUtxo}
    (hin : input ∈ inputs) (hw : input.witnessUtxo = some w) :
    bytesToHex w.script ∈ inputsScriptsOf inputs := by
  simp only [inputsScriptsOf, List.mem_map, List.mem_filterMap]
  exact ⟨w.script, ⟨input, hin, by simp [hw]⟩, rfl⟩

theorem mem_collectInputIndexes (sd : List (String × ScriptDetails)) (inputs : List PsetInput)
    (start j : Nat) :
    j ∈ collectInputIndexes sd inputs start ↔
      ∃ k input w, j = start + k ∧ inputs.get? k = some input ∧
        input.witnessUtxo = some w ∧
        ∃ d, lookupRecord sd (bytesToHex w.script) = some d := by
  induction inputs generalizing start with
  | nil => simp [collectInputIndexes]
  | cons input0 rest ih =>
    have step : ∀ tail : List Nat, tail = collectInputIndexes sd rest (start + 1) →
        (j ∈ tail ↔ ∃ k inp w, j = start + (k + 1) ∧ rest.get? k = some inp ∧
          inp.witnessUtxo = some w ∧ ∃ d, lookupRecord sd (bytesToHex w.script) = some d) := by
      rintro tail rfl
      rw [ih]
      constructor
      · rintro ⟨k, inp, w, rfl, hget, hw, hd⟩
        exact ⟨k, inp, w, by omega, hget, hw, hd⟩
      · rintro ⟨k, inp, w, hj, hget, hw, hd⟩
        exact ⟨k, inp, w, by omega, hget, hw, hd⟩
    cases hw0 : input0.witnessUtxo with
    | none =>
      simp only [collectInputIndexes, hw0]
      rw [step _ rfl]
      constructor
      · rintro ⟨k, inp, w, rfl, hget, hw, hd⟩
        exact ⟨k + 1, inp, w, rfl, by simpa using hget, hw, hd⟩
      · rintro ⟨k, inp, w, rfl, hget, hw, hd⟩
        cases k with
        | zero =>
          simp only [List.get?] at hget
          cases hget
          rw [hw0] at hw
          cases hw
        | succ k' =>
          exact ⟨k', inp, w, rfl, by simpa using hget, hw, hd⟩
    | some w0 =>
      cases hl : lookupRecord sd (bytesToHex w0.script) with
      | none =>
        simp only [collectInputIndexes, hw0, hl]
        rw [step _ rfl]
        constructor
        · rintro ⟨k, inp, w, rfl, hget, hw, hd⟩
          exact ⟨k + 1, inp, w, rfl, by simpa using hget, hw, hd⟩
        · rintro ⟨k, inp, w, rfl, hget, hw, hd⟩
          cases k with
          | zero =>
            simp only [List.get?] at hget
            cases hget
            rw [hw0] at hw
            cases hw
            obtain ⟨d, hd⟩ := hd
            rw [hl] at hd
            cases hd
          | succ k' =>
            exact ⟨k', inp, w, rfl, by simpa using hget, hw, hd⟩
      | some d0 =>
        simp only [collectInputIndexes, hw0, hl, List.mem_cons]
        rw [step _ rfl]
        constructor
        · rintro (rfl | ⟨k, inp, w, rfl, hget, hw, hd⟩)
          · exact ⟨0, input0, w0, by omega, rfl, hw0, d0, hl⟩
          · exact ⟨k + 1, inp, w, rfl, by simpa using hget, hw, hd⟩
        · rintro ⟨k, inp, w, rfl, hget, hw, hd⟩
          cases k with
          | zero => exact Or.inl (by omega)
          | succ k' =>
            exact Or.inr ⟨k', inp, w, rfl, by simpa using hget, hw, hd⟩

theorem collectInputIndexes_lower_bound (sd : List (String × ScriptDetails)) :
    ∀ (inputs : List PsetInput) (start : Nat),
      ∀ j ∈ collectInputIndexes sd inputs start, start ≤ j := by
  intro inputs
  induction inputs with
  | nil => intro start j hj; simp [collectInputIndexes] at hj
  | cons input0 rest ih =>
    intro start j hj
    cases hw0 : input0.witnessUtxo with
    | none =>
      simp only [collectInputIndexes, hw0] at hj
      exact Nat.le_of_succ_le (ih (start + 1) j hj)
    | some w0 =>
      cases hl : lookupRecord sd (bytesToHex w0.script) with
      | none =>
        simp only [collectInputIndexes, hw0, hl] at hj
        exact Nat.le_of_succ_le (ih (start + 1) j hj)
      | some d0 =>
        simp only [collectInputIndexes, hw0, hl] at hj
        rcases List.mem_cons.mp hj with rfl | hj'
        · exact Nat.le_refl j
        · exact Nat.le_of_succ_le (ih (start + 1) j hj')

theorem collectInputIndexes_pairwise_lt (sd : List (String × ScriptDetails)) :
    ∀ (inputs : List PsetInput) (start : Nat),
      (collectInputIndexes sd inputs start).Pairwise (· < ·) := by
  intro inputs
  induction inputs with
  | nil => intro start; simp [collectInputIndexes]
  | cons input0 rest ih =>
    intro start
    cases hw0 : input0.witnessUtxo with
    | none =>
      simp only [collectInputIndexes, hw0]
      exact ih (start + 1)
    | some w0 =>
      cases hl : lookupRecord sd (bytesToHex w0.script) with
      | none =>
        simp only [collectInputIndexes, hw0, hl]
        exact ih (start + 1)
      | some d0 =>
        simp only [collectInputIndexes, hw0, hl]
        refine List.Pairwise.cons ?_ (ih (start + 1))
        intro j hj
        exact Nat.lt_of_succ_le (collectInputIndexes_lower_bound sd rest (start + 1) j hj)

theorem unblindLoop_map_index_sublist (state : WalletState) (inputs : List PsetInput) :
    ∀ idxs : List Nat,
      ((unblindLoop state inputs idxs).map (fun e => e.index)).Sublist idxs := by
  intro idxs
  induction idxs with
  | nil => simp [unblindLoop]
  | cons idx rest ih =>
    cases hget : inputs.get? idx with
    | none =>
      simp only [unblindLoop, hget]
      exact ih.cons idx
    | some input =>
      cases hh : state.outputHistory
          (outpointToString (bytesToHex input.previousTxid.reverse) input.previousTxIndex) with
      | none =>
        simp only [unblindLoop, hget, hh]
        exact ih.cons idx
      | some unblindOutput =>
        cases hbd : unblindOutput.blindingData with
        | none =>
          simp only [unblindLoop, hget, hh, hbd]
          exact ih.cons idx
        | some bd =>
          simp only [unblindLoop, hget, hh, hbd, List.map_cons]
          exact ih.cons₂ idx

theorem mem_unblindLoop (state : WalletState) (inputs : List PsetInput) :
    ∀ (idxs : List Nat) (e : UnblindedInput), e ∈ unblindLoop state inputs idxs →
      e.index ∈ idxs ∧ ∃ input unblindOutput bd,
        inputs.get? e.index = some input ∧
        state.outputHistory
          (outpointToString (bytesToHex input.previousTxid.reverse) input.previousTxIndex) =
          some unblindOutput ∧
        unblindOutput.blindingData = some bd ∧
        e.asset = bd.asset ∧ e.amount = toString bd.value ∧
        e.assetBlinder = reverseHex bd.assetBlindingFactor ∧
        e.amountBlinder = reverseHex bd.valueBlindingFactor := by
  intro idxs
  induction idxs with
  | nil => intro e he; simp [unblindLoop] at he
  | cons idx rest ih =>
    intro e he
    cases hget : inputs.get? idx with
    | none =>
      simp only [unblindLoop, hget] at he
      obtain ⟨hmem, hrest⟩ := ih e he
      exact ⟨List.mem_cons_of_mem idx hmem, hrest⟩
    | some input =>
      cases hh : state.outputHistory
          (outpointToString (bytesToHex input.previousTxid.reverse) input.previousTxIndex) with
      | none =>
        simp only [unblindLoop, hget, hh] at he
        obtain ⟨hmem, hrest⟩ := ih e he
        exact ⟨List.mem_cons_of_mem idx hmem, hrest⟩
      | some unblindOutput =>
        cases hbd : unblindOutput.blindingData with
        | none =>
          simp only [unblindLoop, hget, hh, hbd] at he
          obtain ⟨hmem, hrest⟩ := ih e he
          exact ⟨List.mem_cons_of_mem idx hmem, hrest⟩
        | some bd =>
          simp only [unblindLoop, hget, hh, hbd, List.mem_cons] at he
          rcases he with rfl | he'
          · exact ⟨List.mem_cons_self _ _,
              input, unblindOutput, bd, hget, hh, hbd, rfl, rfl, rfl, rfl⟩
          · obtain ⟨hmem, hrest⟩ := ih e he'
            exact ⟨List.mem_cons_of_mem idx hmem, hrest⟩

theorem unblindLoop_complete (state : WalletState) (inputs : List PsetInput) :
    ∀ (idxs : List Nat) (idx : Nat) (input : PsetInput) (unblindOutput : UnblindOutput)
      (bd : BlindingData), idx ∈ idxs → inputs.get? idx = some input →
      state.outputHistory
        (outpointToString (bytesToHex input.previousTxid.reverse) input.previousTxIndex) =
        some unblindOutput →
      unblindOutput.blindingData = some bd →
      ∃ e ∈ unblindLoop state inputs idxs, e.index = idx := by
  intro idxs
  induction idxs with
  | nil => intro idx input uo bd hmem; simp at hmem
  | cons idx0 rest ih =>
    intro idx input uo bd hmem hget hh hbd
    rcases List.mem_cons.mp hmem with rfl | hmem'
    · refine ⟨{ asset := bd.asset, assetBlinder := reverseHex bd.assetBlindingFactor,
                amountBlinder := reverseHex bd.valueBlindingFactor,
                amount := toString bd.value, index := idx }, ?_, rfl⟩
      simp only [unblindLoop, hget, hh, hbd]
      exact List.mem_cons_self _ _
    · obtain ⟨e, he, hidx⟩ := ih idx input uo bd hmem' hget hh hbd
      refine ⟨e, ?_, hidx⟩
      cases hget0 : inputs.get? idx0 with
      | none =>
        simp only [unblindLoop, hget0]
        exact he
      | some input0 =>
        cases hh0 : state.outputHistory
            (outpointToString (bytesToHex input0.previousTxid.reverse)
              input0.previousTxIndex) with
        | none =>
          simp only [unblindLoop, hget0, hh0]
          exact he
        | some uo0 =>
          cases hbd0 : uo0.blindingData with
          | none =>
            simp only [unblindLoop, hget0, hh0, hbd0]
            exact he
          | some bd0 =>
            simp only [unblindLoop, hget0, hh0, hbd0]
            exact List.mem_cons_of_mem _ he

theorem psetToUnblindedInputs_complete_aux (state : WalletState) (pset : Pset) (j : Nat)
    (input : PsetInput) (w : WitnessUtxo) (d : ScriptDetails) (uo : UnblindOutput)
    (bd : BlindingData)
    (hget : pset.inputs.get? j = some input)
    (hw : input.witnessUtxo = some w)
    (hscript : state.scriptDetails (bytesToHex w.script) = some d)
    (hh : state.outputHistory
      (outpointToString (bytesToHex input.previousTxid.reverse) input.previousTxIndex) =
      some uo)
    (hbd : uo.blindingData = some bd) :
    ∃ e ∈ psetToUnblindedInputs state pset, e.index = j := by
  have hmemscripts : bytesToHex w.script ∈ inputsScriptsOf pset.inputs :=
    mem_inputsScriptsOf (List.get?_mem hget) hw
  have hlook : lookupRecord (buildScriptsDetails state (inputsScriptsOf pset.inputs))
      (bytesToHex w.script) = some d := by
    rw [lookupRecord_buildScriptsDetails, if_pos hmemscripts, hscript]
  have hcollect : j ∈ collectInputIndexes
      (buildScriptsDetails state (inputsScriptsOf pset.inputs)) pset.inputs 0 := by
    rw [mem_collectInputIndexes]
    exact ⟨j, input, w, (Nat.zero_add j).symm, hget, hw, d, hlook⟩
  exact unblindLoop_complete state pset.inputs _ j input uo bd hcollect hget hh hbd

/-- Claim C1: every entry of `psetToUnblindedInputs` carries the original
input index of the template input it came from; the wallet output history,
keyed by the input's previous transaction id byte-reversed (hex) plus the
output index, holds blinding data for that outpoint; and the entry's asset and
amount equal the recorded values while its asset and amount blinding factors
equal the recorded hex values byte-reversed. -/
theorem psetToUnblindedInputs_entries_faithful (state : WalletState) (pset : Pset)
    (e : UnblindedInput) (he : e ∈ psetToUnblindedInputs state pset) :
    ∃ input unblindOutput bd,
      pset.inputs.get? e.index = some input ∧
      state.outputHistory
        (outpointToString (bytesToHex input.previousTxid.reverse) input.previousTxIndex) =
        some unblindOutput ∧
      unblindOutput.blindingData = some bd ∧
      e.asset = bd.asset ∧ e.amount = toString bd.value ∧
      e.assetBlinder = reverseHex bd.assetBlindingFactor ∧
      e.amountBlinder = reverseHex bd.valueBlindingFactor :=
  (mem_unblindLoop state pset.inputs _ e he).2

theorem psetToUnblindedInputs_entries_faithful_witness :
    exUnblinded ∈ psetToUnblindedInputs exState exPset ∧
    ∃ input unblindOutput bd,
      exPset.inputs.get? exUnblinded.index = some input ∧
      exState.outputHistory
        (outpointToString (bytesToHex input.previousTxid.reverse) input.previousTxIndex) =
        some unblindOutput ∧
      unblindOutput.blindingData = some bd ∧
      exUnblinded.asset = bd.asset ∧ exUnblinded.amount = toString bd.value ∧
      exUnblinded.assetBlinder = reverseHex bd.assetBlindingFactor ∧
      exUnblinded.amountBlinder = reverseHex bd.valueBlindingFactor :=
  ⟨by decide, psetToUnblindedInputs_entries_faithful exState exPset exUnblinded (by decide)⟩

/-- Claim C8: a template input whose script belongs to the wallet's script
index but whose outpoint is absent from the wallet's output history, or whose
history entry lacks blinding data, is omitted from the result of
`psetToUnblindedInputs` (the function is total, so no error is raised), while
every other wallet-owned input with recorded blinding data still contributes
its entry to the partial result. -/
theorem psetToUnblindedInputs_skips_unresolved (state : WalletState) (pset : Pset)
    (i : Nat) (input : PsetInput) (w : WitnessUtxo) (d : ScriptDetails)
    (hget : pset.inputs.get? i = some input)
    (hw : input.witnessUtxo = some w)
    (hscript : state.scriptDetails (bytesToHex w.script) = some d)
    (hmiss : state.outputHistory
        (outpointToString (bytesToHex input.previousTxid.reverse) input.previousTxIndex) =
        none ∨
      ∃ uo, state.outputHistory
        (outpointToString (bytesToHex input.previousTxid.reverse) input.previousTxIndex) =
        some uo ∧ uo.blindingData = none) :
    (∀ e ∈ psetToUnblindedInputs state pset, e.index ≠ i) ∧
    (∀ (j : Nat) (input' : PsetInput) (w' : WitnessUtxo) (d' : ScriptDetails)
        (uo' : UnblindOutput) (bd' : BlindingData),
      pset.inputs.get? j = some input' → input'.witnessUtxo = some w' →
      state.scriptDetails (bytesToHex w'.script) = some d' →
      state.outputHistory
        (outpointToString (bytesToHex input'.previousTxid.reverse) input'.previousTxIndex) =
        some uo' →
      uo'.blindingData = some bd' →
      ∃ e ∈ psetToUnblindedInputs state pset, e.index = j) := by
  constructor
  · intro e he hcontra
    obtain ⟨-, input2, uo2, bd2, hget2, hh2, hbd2, -⟩ :=
      mem_unblindLoop state pset.inputs _ e he
    rw [hcontra] at hget2
    rw [hget] at hget2
    cases hget2
    rcases hmiss with hnone | ⟨uo3, hsome3, hbd3⟩
    · rw [hnone] at hh2
      cases hh2
    · rw [hsome3] at hh2
      cases hh2
      rw [hbd3] at hbd2
      cases hbd2
  · intro j input' w' d' uo' bd' hget' hw' hscript' hh' hbd'
    exact psetToUnblindedInputs_complete_aux state pset j input' w' d' uo' bd'
      hget' hw' hscript' hh' hbd'

theorem psetToUnblindedInputs_skips_unresolved_witness :
    exPset.inputs.get? 0 = some exInput ∧
    exInput.witnessUtxo = some { script := [0, 1] } ∧
    exStateNoHistory.scriptDetails (bytesToHex [0, 1]) = some { present := () } ∧
    exStateNoHistory.outputHistory
      (outpointToString (bytesToHex exInput.previousTxid.reverse) exInput.previousTxIndex) =
      none ∧
    (∀ e ∈ psetToUnblindedInputs exStateNoHistory exPset, e.index ≠ 0) :=
  ⟨by decide, by decide, by decide, by decide,
    (psetToUnblindedInputs_skips_unresolved exStateNoHistory exPset 0 exInput
      { script := [0, 1] } { present := () } (by decide) (by decide) (by decide)
      (Or.inl (by decide))).1⟩

/-- Claim C9, counterexample: a template whose single input is wallet-owned
(its script is in the script index) but whose outpoint has no history entry
resolves to the empty list, so the result does not correspond 1:1 with the
wallet-owned inputs of the template, refuting the claim as stated. -/
theorem psetToUnblindedInputs_owned_without_data_dropped :
    psetToUnblindedInputs exStateNoHistory exPset = [] ∧
    exPset.inputs.get? 0 = some exInput ∧
    exInput.witnessUtxo = some { script := [0, 1] } ∧
    exStateNoHistory.scriptDetails (bytesToHex [0, 1]) = some { present := () } :=
  ⟨by decide, by decide, by decide, by decide⟩

/-- Claim C9, amended: the input indices in the result of
`psetToUnblindedInputs` are pairwise distinct, every entry's index denotes a
wallet-owned input (an input not owned by the wallet never appears), and the
entries correspond 1:1 with the wallet-owned inputs whose outpoint carries
recorded blinding data in the output history — not with all wallet-owned
inputs, since owned inputs without cached blinding data are skipped. -/
theorem psetToUnblindedInputs_indices_distinct_owned (state : WalletState) (pset : Pset) :
    ((psetToUnblindedInputs state pset).map (fun e => e.index)).Pairwise (· ≠ ·) ∧
    (∀ e ∈ psetToUnblindedInputs state pset, ∃ input w d,
      pset.inputs.get? e.index = some input ∧ input.witnessUtxo = some w ∧
      state.scriptDetails (bytesToHex w.script) = some d) ∧
    (∀ (j : Nat) (input : PsetInput) (w : WitnessUtxo) (d : ScriptDetails)
        (uo : UnblindOutput) (bd : BlindingData),
      pset.inputs.get? j = some input → input.witnessUtxo = some w →
      state.scriptDetails (bytesToHex w.script) = some d →
      state.outputHistory
        (outpointToString (bytesToHex input.previousTxid.reverse) input.previousTxIndex) =
        some uo →
      uo.blindingData = some bd →
      ∃ e ∈ psetToUnblindedInputs state pset, e.index = j) := by
  refine ⟨?_, ?_, ?_⟩
  · have hsub := unblindLoop_map_index_sublist state pset.inputs
      (collectInputIndexes (buildScriptsDetails state (inputsScriptsOf pset.inputs))
        pset.inputs 0)
    have hpw := collectInputIndexes_pairwise_lt
      (buildScriptsDetails state (inputsScriptsOf pset.inputs)) pset.inputs 0
    exact ((hpw.sublist hsub).imp Nat.ne_of_lt)
  · intro e he
    obtain ⟨hidx, -⟩ := mem_unblindLoop state pset.inputs _ e he
    rw [mem_collectInputIndexes] at hidx
    obtain ⟨k, input, w, hk, hget, hw, d, hlook⟩ := hidx
    rw [lookupRecord_buildScriptsDetails] at hlook
    rw [Nat.zero_add] at hk
    subst hk
    refine ⟨input, w, ?_⟩
    by_cases hmem : bytesToHex w.script ∈ inputsScriptsOf pset.inputs
    · rw [if_pos hmem] at hlook
      exact ⟨d, hget, hw, hlook⟩
    · rw [if_neg hmem] at hlook
      cases hlook
  · intro j input w d uo bd hget hw hscript hh hbd
    exact psetToUnblindedInputs_complete_aux state pset j input w d uo bd
      hget hw hscript hh hbd

theorem psetToUnblindedInputs_indices_distinct_owned_witness :
    ((psetToUnblindedInputs exState exPset).map (fun e => e.index)).Pairwise (· ≠ ·) ∧
    (∃ e ∈ psetToUnblindedInputs exState exPset, e.index = 0) :=
  ⟨(psetToUnblindedInputs_indices_distinct_owned exState exPset).1,
    (psetToUnblindedInputs_indices_distinct_owned exState exPset).2.2 0 exInput
      { script := [0, 1] } { present := () }
      { blindingData := some { asset := "lbtc", assetBlindingFactor := "0a0b",
                               valueBlindingFactor := "ff00", value := 42 } }
      { asset := "lbtc", assetBlindingFactor := "0a0b",
        valueBlindingFactor := "ff00", value := 42 }
      (by decide) (by decide) (by decide) (by decide) (by decide)⟩

end Tdex
